import Mathlib

/-!
Verification model of the `uf_database` import pipeline (`import_data.py`,
`models.py`, `database_setup.py`, `main.py`).

The Python program is shallowly embedded: spreadsheet cells become the
`PyVal` type, Python strings become lists of Unicode code points (Python
strings may contain lone surrogates, which Lean `Char` cannot), pandas
operations (`drop_duplicates`, `dropna`, `astype(str)`) become list
functions, the SQLAlchemy session becomes an explicit association-list
store with `merge` / `commit` / `rollback` made explicit state passing,
and each row-level upsert outcome of the external storage engine is an
explicit field of the source row (the storage engine is an opaque
external collaborator: a row's attempt either succeeds or raises a given
exception).
-/

/-- A loosely typed spreadsheet cell / Python value, as produced by
`pd.read_excel` followed by `df.where(pd.notnull(df), None)`:
either `None`, a Python `str` (a sequence of Unicode code points,
possibly including lone surrogates), a numeric cell, or a
`datetime.date` (abstracted to an ordinal day number). -/
inductive PyVal where
  | null
  | str (cps : List Nat)
  | num (q : ℚ)
  | date (d : Nat)
deriving DecidableEq

/-- Code points of a Lean string literal (used to build concrete Python
strings without surrogates). -/
def cpsOf (s : String) : List Nat := s.toList.map Char.toNat

/-- `None`-test on a cell, as used by `pandas.dropna`. -/
def isNull : PyVal → Bool
  | .null => true
  | _ => false

/-- The Unicode whitespace code points stripped by Python `str.strip()`. -/
def isPySpace (c : Nat) : Bool :=
  c == 0x20 || (0x9 ≤ c && c ≤ 0xD) || (0x1C ≤ c && c ≤ 0x1F) ||
  c == 0x85 || c == 0xA0 || c == 0x1680 || (0x2000 ≤ c && c ≤ 0x200A) ||
  c == 0x2028 || c == 0x2029 || c == 0x202F || c == 0x205F || c == 0x3000

/-- Python `str.strip()`: remove leading and trailing whitespace. -/
def pyStrip (l : List Nat) : List Nat :=
  ((l.dropWhile isPySpace).reverse.dropWhile isPySpace).reverse

/-- Surrogate code points `U+D800 .. U+DFFF`: representable in a Python
`str` but not encodable to UTF-8. -/
def isSurrogate (c : Nat) : Bool := 0xD800 ≤ c && c ≤ 0xDFFF

/-- UTF-8 encoding of one code point under `errors='ignore'`: an
unencodable (surrogate) code point is dropped, producing no bytes. -/
def encodeCp (c : Nat) : List Nat :=
  if c < 0x80 then [c]
  else if c < 0x800 then [0xC0 + c / 64, 0x80 + c % 64]
  else if isSurrogate c then []
  else if c < 0x10000 then [0xE0 + c / 4096, 0x80 + c / 64 % 64, 0x80 + c % 64]
  else [0xF0 + c / 262144, 0x80 + c / 4096 % 64, 0x80 + c / 64 % 64, 0x80 + c % 64]

/-- `s.encode('utf-8', errors='ignore')`: byte string of a code point
sequence, dropping unencodable code points. -/
def encodeUtf8 : List Nat → List Nat
  | [] => []
  | c :: rest => encodeCp c ++ encodeUtf8 rest

/-- One transition of the UTF-8 decoding automaton.  The state is the
decoded output so far together with an optional partially decoded code
point (its value so far and the number of continuation bytes still
expected).  A lead byte opens a multi-byte sequence, a continuation
byte shifts into the pending value, and the final continuation byte
emits the reassembled code point. -/
def decStep : List Nat × Option (Nat × Nat) → Nat → List Nat × Option (Nat × Nat)
  | (out, none), b =>
    if b < 0x80 then (out ++ [b], none)
    else if b < 0xC0 then (out, none)
    else if b < 0xE0 then (out, some (b - 0xC0, 1))
    else if b < 0xF0 then (out, some (b - 0xE0, 2))
    else (out, some (b - 0xF0, 3))
  | (out, some (v, n)), b =>
    if n ≤ 1 then (out ++ [v * 64 + (b - 0x80)], none)
    else (out, some (v * 64 + (b - 0x80), n - 1))

/-- `bytes.decode('utf-8')`, modelled on well-formed input (the strict
decoder raises on malformed bytes; the pipeline only ever decodes bytes
it just encoded, which are well-formed, so the model is made total by
silently skipping stray continuation bytes and dropping a trailing
incomplete sequence). -/
def decodeUtf8 (l : List Nat) : List Nat := (l.foldl decStep ([], none)).1

/-- `safe_string` on the code points of a Python `str` (import_data.py
lines 33-35): strip, then encode to UTF-8 ignoring unencodable code
points, then decode back. -/
def safeStringCps (l : List Nat) : List Nat :=
  decodeUtf8 (encodeUtf8 (pyStrip l))

/-- `safe_string` (import_data.py lines 26-35): `None` and any
non-string value pass through unchanged; a string is stripped and
round-tripped through UTF-8 with `errors='ignore'`. -/
def safe_string : PyVal → PyVal
  | .str l => .str (safeStringCps l)
  | v => v

/-! ### UTF-8 round-trip: encode-then-decode drops exactly the
unencodable code points. -/

theorem decStep_none (out : List Nat) (b : Nat) :
    decStep (out, none) b =
      if b < 0x80 then (out ++ [b], none)
      else if b < 0xC0 then (out, none)
      else if b < 0xE0 then (out, some (b - 0xC0, 1))
      else if b < 0xF0 then (out, some (b - 0xE0, 2))
      else (out, some (b - 0xF0, 3)) := rfl

theorem decStep_some (out : List Nat) (v n b : Nat) :
    decStep (out, some (v, n)) b =
      if n ≤ 1 then (out ++ [v * 64 + (b - 0x80)], none)
      else (out, some (v * 64 + (b - 0x80), n - 1)) := rfl

theorem foldl_decStep_encodeCp (c : Nat) (hlt : c < 0x110000)
    (hs : isSurrogate c = false) (out rest : List Nat) :
    (encodeCp c ++ rest).foldl decStep (out, none) =
      rest.foldl decStep (out ++ [c], none) := by
  have hsg : ¬ (0xD800 ≤ c ∧ c ≤ 0xDFFF) := by
    intro h
    simp [isSurrogate, h.1, h.2] at hs
  by_cases h1 : c < 0x80
  · rw [encodeCp, if_pos h1, List.cons_append, List.nil_append, List.foldl_cons,
      decStep_none, if_pos h1]
  · by_cases h2 : c < 0x800
    · have hd1 : 2 ≤ c / 64 := by omega
      have hd2 : c / 64 < 32 := by omega
      rw [encodeCp, if_neg h1, if_pos h2, List.cons_append, List.cons_append,
        List.nil_append, List.foldl_cons, decStep_none,
        if_neg (by omega), if_neg (by omega), if_pos (by omega),
        List.foldl_cons, decStep_some, if_pos (by omega),
        show (0xC0 + c / 64 - 0xC0) * 64 + (0x80 + c % 64 - 0x80) = c by omega]
    · by_cases h3 : c < 0x10000
      · have hd1 : c / 4096 < 16 := by omega
        have hd2 : 0x800 ≤ c := by omega
        rw [encodeCp, if_neg h1, if_neg h2, if_neg (by simp [hs]), if_pos h3,
          List.cons_append, List.cons_append, List.cons_append, List.nil_append,
          List.foldl_cons, decStep_none,
          if_neg (by omega), if_neg (by omega), if_neg (by omega), if_pos (by omega),
          List.foldl_cons, decStep_some, if_neg (by omega),
          List.foldl_cons, decStep_some, if_pos (by omega)]
        rw [show ((0xE0 + c / 4096 - 0xE0) * 64 + (0x80 + c / 64 % 64 - 0x80)) * 64 +
            (0x80 + c % 64 - 0x80) = c by omega]
      · have hd1 : c / 262144 < 17 := by omega
        have hd2 : 0x10000 ≤ c := by omega
        rw [encodeCp, if_neg h1, if_neg h2, if_neg (by simp [hs]), if_neg h3,
          List.cons_append, List.cons_append, List.cons_append, List.cons_append,
          List.nil_append, List.foldl_cons, decStep_none,
          if_neg (by omega), if_neg (by omega), if_neg (by omega), if_neg (by omega),
          List.foldl_cons, decStep_some, if_neg (by omega),
          List.foldl_cons, decStep_some, if_neg (by omega),
          List.foldl_cons, decStep_some, if_pos (by omega)]
        rw [show (((0xF0 + c / 262144 - 0xF0) * 64 + (0x80 + c / 4096 % 64 - 0x80)) * 64 +
            (0x80 + c / 64 % 64 - 0x80)) * 64 + (0x80 + c % 64 - 0x80) = c by omega]

theorem foldl_decStep_encodeUtf8 (l : List Nat) (h : ∀ c ∈ l, c < 0x110000)
    (out : List Nat) :
    (encodeUtf8 l).foldl decStep (out, none) =
      (out ++ l.filter (fun c => !isSurrogate c), none) := by
  induction l generalizing out with
  | nil => simp [encodeUtf8]
  | cons c rest ih =>
    have hc : c < 0x110000 := h c (List.mem_cons_self c rest)
    have hrest : ∀ x ∈ rest, x < 0x110000 := fun x hx => h x (List.mem_cons_of_mem c hx)
    by_cases hs : isSurrogate c = true
    · have hr : 0xD800 ≤ c ∧ c ≤ 0xDFFF := by
        simpa [isSurrogate] using hs
      have henc : encodeCp c = [] := by
        rw [encodeCp, if_neg (by omega), if_neg (by omega), if_pos hs]
      simp [encodeUtf8, henc, ih hrest, List.filter_cons, hs]
    · have hs' : isSurrogate c = false := by
        cases hb : isSurrogate c
        · rfl
        · exact absurd hb hs
      rw [show encodeUtf8 (c :: rest) = encodeCp c ++ encodeUtf8 rest from rfl,
        foldl_decStep_encodeCp c hc hs', ih hrest]
      simp [List.filter_cons, hs']

/-- Round trip of `encode('utf-8', errors='ignore')` followed by
`decode('utf-8')`: exactly the unencodable (surrogate) code points are
dropped; every other code point survives unchanged. -/
theorem decodeUtf8_encodeUtf8 (l : List Nat) (h : ∀ c ∈ l, c < 0x110000) :
    decodeUtf8 (encodeUtf8 l) = l.filter (fun c => !isSurrogate c) := by
  rw [decodeUtf8, foldl_decStep_encodeUtf8 l h []]
  simp

/-! ### `str.strip()` facts used for idempotence of `safe_string`. -/

theorem dropWhile_dropWhile (p : α → Bool) (l : List α) :
    (l.dropWhile p).dropWhile p = l.dropWhile p := by
  induction l with
  | nil => rfl
  | cons a l ih =>
    by_cases h : p a = true
    · rw [List.dropWhile_cons_of_pos h, ih]
    · rw [List.dropWhile_cons_of_neg h, List.dropWhile_cons_of_neg h]

theorem dropWhile_prefix_self (p : α → Bool) (l q : List α)
    (hl : l.dropWhile p = l) (hq : q <+: l) : q.dropWhile p = q := by
  cases q with
  | nil => rfl
  | cons a qt =>
    obtain ⟨t, ht⟩ := hq
    have hpa : p a = false := by
      by_contra hpa
      have hpa' : p a = true := by
        cases hb : p a
        · exact absurd hb hpa
        · rfl
      have : l.dropWhile p = (qt ++ t).dropWhile p := by
        rw [← ht, List.cons_append, List.dropWhile_cons_of_pos hpa']
      have hlen : l.length ≤ (qt ++ t).length := by
        rw [hl] at this
        rw [this]
        exact (List.dropWhile_sublist p).length_le
      rw [← ht] at hlen
      simp at hlen
    rw [List.dropWhile_cons_of_neg (by simp [hpa])]

theorem pyStrip_idem (l : List Nat) : pyStrip (pyStrip l) = pyStrip l := by
  set l1 := l.dropWhile isPySpace with hl1
  have hl1d : l1.dropWhile isPySpace = l1 := dropWhile_dropWhile _ _
  set m := l1.reverse.dropWhile isPySpace with hm
  have hmd : m.dropWhile isPySpace = m := dropWhile_dropWhile _ _
  have hstrip : pyStrip l = m.reverse := rfl
  have hpre : m.reverse <+: l1 := by
    have hsuf : m <:+ l1.reverse := List.dropWhile_suffix _
    have := List.reverse_prefix.mpr hsuf
    rwa [List.reverse_reverse] at this
  have hA : m.reverse.dropWhile isPySpace = m.reverse :=
    dropWhile_prefix_self _ _ _ hl1d hpre
  rw [hstrip, pyStrip, hA, List.reverse_reverse, hmd]

theorem mem_pyStrip_subset {l : List Nat} {c : Nat} (h : c ∈ pyStrip l) : c ∈ l := by
  have h1 : c ∈ (l.dropWhile isPySpace).reverse.dropWhile isPySpace := by
    rw [pyStrip] at h
    exact (List.mem_reverse).mp h
  have h2 : c ∈ (l.dropWhile isPySpace).reverse := (List.dropWhile_sublist _).subset h1
  exact (List.dropWhile_sublist _).subset ((List.mem_reverse).mp h2)

/-! ### The transactional keyed store.

SQLAlchemy `session.merge` on an entity whose mapped table has a
primary key is insert-or-update by key.  The database plus session view
is modelled as an association list from primary key to entity. -/

/-- An association-list store: one `(primary key, entity)` pair per row. -/
abbrev Store (κ φ : Type) : Type := List (κ × φ)

/-- Row lookup by primary key. -/
def lookupStore {κ φ : Type} [DecidableEq κ] : Store κ φ → κ → Option φ
  | [], _ => none
  | (k2, v) :: rest, k => if k = k2 then some v else lookupStore rest k

/-- `session.merge(entity)`: if a row with the entity's primary key
exists it is overwritten (a table with a primary key holds at most one
such row), otherwise the row is inserted. -/
def mergeStore {κ φ : Type} [DecidableEq κ] : Store κ φ → κ → φ → Store κ φ
  | [], k, v => [(k, v)]
  | (k2, w) :: rest, k, v =>
      if k2 = k then (k, v) :: rest else (k2, w) :: mergeStore rest k v

/-- Number of rows stored under a given key. -/
def countKey {κ φ : Type} [DecidableEq κ] (st : Store κ φ) (k : κ) : Nat :=
  st.countP (fun p => decide (p.1 = k))

/-- Keys of the stored rows, in storage order. -/
def storeKeys {κ φ : Type} (st : Store κ φ) : List κ := st.map Prod.fst

theorem lookupStore_append {κ φ : Type} [DecidableEq κ]
    (st1 st2 : Store κ φ) (k : κ) :
    lookupStore (st1 ++ st2) k =
      match lookupStore st1 k with
      | some v => some v
      | none => lookupStore st2 k := by
  induction st1 with
  | nil => rfl
  | cons p rest ih =>
    obtain ⟨k2, v⟩ := p
    by_cases h : k = k2
    · simp [lookupStore, h]
    · simp only [List.cons_append, lookupStore, if_neg h]
      exact ih

theorem lookupStore_eq_none_iff {κ φ : Type} [DecidableEq κ]
    (st : Store κ φ) (k : κ) :
    lookupStore st k = none ↔ k ∉ storeKeys st := by
  induction st with
  | nil => simp [lookupStore, storeKeys]
  | cons p rest ih =>
    obtain ⟨k2, v⟩ := p
    by_cases h : k = k2
    · simp [lookupStore, storeKeys, h]
    · simp [lookupStore, storeKeys, h, ih]

theorem lookupStore_isSome_of_mem_keys {κ φ : Type} [DecidableEq κ]
    {st : Store κ φ} {k : κ} (h : k ∈ storeKeys st) :
    (lookupStore st k).isSome = true := by
  cases ho : lookupStore st k
  · exact absurd ((lookupStore_eq_none_iff st k).mp ho) (by simp [h])
  · rfl

theorem mergeStore_of_absent {κ φ : Type} [DecidableEq κ]
    {st : Store κ φ} {k : κ} (v : φ) (h : lookupStore st k = none) :
    mergeStore st k v = st ++ [(k, v)] := by
  induction st with
  | nil => rfl
  | cons p rest ih =>
    obtain ⟨k2, w⟩ := p
    simp only [lookupStore] at h
    by_cases hk : k = k2
    · rw [if_pos hk] at h
      exact absurd h (by simp)
    · rw [if_neg hk] at h
      rw [mergeStore, if_neg (fun hc => hk hc.symm), ih h, List.cons_append]

theorem lookupStore_mergeStore_self {κ φ : Type} [DecidableEq κ]
    (st : Store κ φ) (k : κ) (v : φ) :
    lookupStore (mergeStore st k v) k = some v := by
  induction st with
  | nil => simp [mergeStore, lookupStore]
  | cons p rest ih =>
    obtain ⟨k2, w⟩ := p
    by_cases hk : k2 = k
    · rw [mergeStore, if_pos hk, lookupStore, if_pos rfl]
    · rw [mergeStore, if_neg hk, lookupStore, if_neg (fun hc => hk hc.symm)]
      exact ih

theorem lookupStore_mergeStore_other {κ φ : Type} [DecidableEq κ]
    (st : Store κ φ) (k k2 : κ) (v : φ) (h : k2 ≠ k) :
    lookupStore (mergeStore st k v) k2 = lookupStore st k2 := by
  induction st with
  | nil => simp [mergeStore, lookupStore, h]
  | cons p rest ih =>
    obtain ⟨k3, w⟩ := p
    by_cases hk : k3 = k
    · rw [mergeStore, if_pos hk, lookupStore, if_neg h, lookupStore,
        if_neg (fun hc => h (hc.trans hk))]
    · rw [mergeStore, if_neg hk]
      by_cases h2 : k2 = k3
      · rw [lookupStore, if_pos h2, lookupStore, if_pos h2]
      · rw [lookupStore, if_neg h2, lookupStore, if_neg h2]
        exact ih

theorem storeKeys_mergeStore_of_present {κ φ : Type} [DecidableEq κ]
    {st : Store κ φ} {k : κ} (v : φ) {w : φ} (h : lookupStore st k = some w) :
    storeKeys (mergeStore st k v) = storeKeys st := by
  induction st with
  | nil => simp [lookupStore] at h
  | cons p rest ih =>
    obtain ⟨k2, w2⟩ := p
    by_cases hk : k2 = k
    · rw [mergeStore, if_pos hk, storeKeys, storeKeys, List.map_cons, List.map_cons, hk]
    · rw [lookupStore, if_neg (fun hc => hk hc.symm)] at h
      rw [mergeStore, if_neg hk, storeKeys, storeKeys, List.map_cons, List.map_cons]
      rw [storeKeys, storeKeys] at ih
      rw [ih h]

theorem storeKeys_mergeStore_subset {κ φ : Type} [DecidableEq κ]
    (st : Store κ φ) (k : κ) (v : φ) :
    storeKeys (mergeStore st k v) ⊆ storeKeys st ++ [k] := by
  cases ho : lookupStore st k with
  | none =>
    rw [mergeStore_of_absent v ho]
    simp [storeKeys]
  | some w =>
    rw [storeKeys_mergeStore_of_present v ho]
    exact fun x hx => List.mem_append_left _ hx

theorem storeKeys_nodup_mergeStore {κ φ : Type} [DecidableEq κ]
    (st : Store κ φ) (k : κ) (v : φ) (h : (storeKeys st).Nodup) :
    (storeKeys (mergeStore st k v)).Nodup := by
  induction st with
  | nil => simp [mergeStore, storeKeys]
  | cons p rest ih =>
    obtain ⟨k2, w⟩ := p
    simp only [storeKeys, List.map_cons, List.nodup_cons] at h
    by_cases hk : k2 = k
    · rw [mergeStore, if_pos hk]
      simp only [storeKeys, List.map_cons, List.nodup_cons]
      refine ⟨?_, h.2⟩
      rw [← hk]
      exact h.1
    · rw [mergeStore, if_neg hk]
      simp only [storeKeys, List.map_cons, List.nodup_cons]
      refine ⟨?_, ih h.2⟩
      intro hc
      have := storeKeys_mergeStore_subset rest k v hc
      simp only [List.mem_append, List.mem_singleton] at this
      rcases this with hc2 | hc2
      · exact h.1 hc2
      · exact hk hc2

theorem countKey_eq_zero_of_not_mem {κ φ : Type} [DecidableEq κ]
    {st : Store κ φ} {k : κ} (h : k ∉ storeKeys st) : countKey st k = 0 := by
  induction st with
  | nil => rfl
  | cons p rest ih =>
    obtain ⟨k2, w⟩ := p
    simp only [storeKeys, List.map_cons, List.mem_cons, not_or] at h
    rw [countKey, List.countP_cons]
    rw [countKey] at ih
    simp only [ih h.2]
    have : ¬ ((k2, w).1 = k) := fun hc => h.1 hc.symm
    simp [this]

theorem countKey_mergeStore_self {κ φ : Type} [DecidableEq κ]
    (st : Store κ φ) (k : κ) (v : φ) (h : (storeKeys st).Nodup) :
    countKey (mergeStore st k v) k = 1 := by
  induction st with
  | nil => simp [mergeStore, countKey]
  | cons p rest ih =>
    obtain ⟨k2, w⟩ := p
    simp only [storeKeys, List.map_cons, List.nodup_cons] at h
    by_cases hk : k2 = k
    · rw [mergeStore, if_pos hk, countKey, List.countP_cons]
      have hz : countKey rest k = 0 := by
        apply countKey_eq_zero_of_not_mem
        rw [← hk]
        exact h.1
      rw [countKey] at hz
      simp [hz]
    · rw [mergeStore, if_neg hk, countKey, List.countP_cons]
      have := ih h.2
      rw [countKey] at this
      have hne : ¬ ((k2, w).1 = k) := fun hc => hk hc
      simp [this, hne]

/-! ### `drop_duplicates(keep='first')`.

Used by every metadata stage, by the AcademicYear and Student stages —
but not by the Enrollment stage (`_import_inscriptions` only calls
`dropna`). -/

/-- `DataFrame.drop_duplicates(subset=[key], keep='first')`: keep a row
iff its key value has not occurred on an earlier row.  `seen` is the
accumulator of key values already encountered. -/
def dedupFirst {α κ : Type} [DecidableEq κ] (key : α → κ) :
    List α → List κ → List α
  | [], _ => []
  | r :: rest, seen =>
      if key r ∈ seen then dedupFirst key rest seen
      else r :: dedupFirst key rest (key r :: seen)

theorem dedupFirst_filter_key {α κ : Type} [DecidableEq κ] (key : α → κ)
    (l : List α) (seen : List κ) (k : κ) :
    (dedupFirst key l seen).filter (fun a => decide (key a = k)) =
      if k ∈ seen then [] else (l.filter (fun a => decide (key a = k))).take 1 := by
  induction l generalizing seen with
  | nil => simp [dedupFirst]
  | cons a l ih =>
    by_cases hs : key a ∈ seen
    · rw [dedupFirst, if_pos hs, ih]
      by_cases hk : k ∈ seen
      · rw [if_pos hk, if_pos hk]
      · rw [if_neg hk, if_neg hk, List.filter_cons]
        have hak : ¬ (key a = k) := fun hc => hk (hc ▸ hs)
        simp [hak]
    · rw [dedupFirst, if_neg hs]
      by_cases hak : key a = k
      · have hks : k ∉ seen := hak ▸ hs
        simp [List.filter_cons, hak, hks, ih]
      · have hka : ¬ (k = key a) := fun hc => hak hc.symm
        simp [List.filter_cons, hak, hka, ih]

theorem dedupFirst_nodup_aux {α κ : Type} [DecidableEq κ] (key : α → κ)
    (l : List α) (seen : List κ) :
    ((dedupFirst key l seen).map key).Nodup ∧
      ∀ k ∈ seen, k ∉ (dedupFirst key l seen).map key := by
  induction l generalizing seen with
  | nil => simp [dedupFirst]
  | cons a l ih =>
    by_cases hs : key a ∈ seen
    · rw [dedupFirst, if_pos hs]
      exact ih seen
    · rw [dedupFirst, if_neg hs]
      obtain ⟨ihn, ihm⟩ := ih (key a :: seen)
      constructor
      · rw [List.map_cons, List.nodup_cons]
        exact ⟨ihm (key a) (List.mem_cons_self _ _), ihn⟩
      · intro k hk
        rw [List.map_cons, List.mem_cons]
        rintro (hc | hc)
        · exact hs (hc ▸ hk)
        · exact ihm k (List.mem_cons_of_mem _ hk) hc

/-- The keys surviving `drop_duplicates(keep='first')` are pairwise
distinct. -/
theorem dedupFirst_keys_nodup {α κ : Type} [DecidableEq κ] (key : α → κ)
    (l : List α) : ((dedupFirst key l []).map key).Nodup :=
  (dedupFirst_nodup_aux key l []).1

theorem dedupFirst_subset {α κ : Type} [DecidableEq κ] (key : α → κ)
    (l : List α) (seen : List κ) : dedupFirst key l seen ⊆ l := by
  induction l generalizing seen with
  | nil => simp [dedupFirst]
  | cons a l ih =>
    by_cases hs : key a ∈ seen
    · rw [dedupFirst, if_pos hs]
      exact fun x hx => List.mem_cons_of_mem _ (ih seen hx)
    · rw [dedupFirst, if_neg hs]
      intro x hx
      rw [List.mem_cons] at hx
      rcases hx with hx | hx
      · exact hx ▸ List.mem_cons_self _ _
      · exact List.mem_cons_of_mem _ (ih (key a :: seen) hx)

theorem dedupFirst_all {α κ : Type} [DecidableEq κ] (key : α → κ)
    (p : α → Bool) (l : List α) (seen : List κ) (h : l.all p = true) :
    (dedupFirst key l seen).all p = true := by
  rw [List.all_eq_true] at h ⊢
  exact fun x hx => h x (dedupFirst_subset key l seen hx)

/-! ### Python `int()` coercion.

import_data.py uses the inline pattern
`int(x) if pd.notna(x) and x is not None else None`
(line 267 for `bacc_annee`, lines 125-126 for `date_creation` /
`date_fin`).  `int` truncates a numeric value toward zero, parses an
integer-literal string, and raises on anything else. -/

def isDigitCp (c : Nat) : Bool := 48 ≤ c && c ≤ 57

/-- Decimal value of a non-empty all-digit code point sequence. -/
def digitsVal (l : List Nat) : Option Nat :=
  if !l.isEmpty && l.all isDigitCp then
    some (l.foldl (fun a c => a * 10 + (c - 48)) 0)
  else none

/-- Python `int(s)` on a string: surrounding whitespace is allowed, an
optional sign, then decimal digits; anything else raises `ValueError`
(`none` here). -/
def pyIntParse (l : List Nat) : Option Int :=
  match pyStrip l with
  | 43 :: ds => (digitsVal ds).map (fun n => (n : Int))
  | 45 :: ds => (digitsVal ds).map (fun n => -(n : Int))
  | ds => (digitsVal ds).map (fun n => (n : Int))

/-- Python `int()` on a number: truncation toward zero. -/
def pyTrunc (q : ℚ) : ℤ := if 0 ≤ q then ⌊q⌋ else ⌈q⌉

/-- `int(x) if pd.notna(x) and x is not None else None`: an absent cell
becomes `None`; a numeric cell is truncated; a string cell is parsed,
raising `ValueError` (`Except.error`) when non-numeric; a date cell
raises `TypeError`. -/
def pyIntOf : PyVal → Except String (Option Int)
  | .null => .ok none
  | .num q => .ok (some (pyTrunc q))
  | .date _ => .error "int() argument must be a number, not datetime.date"
  | .str l =>
      match pyIntParse l with
      | some n => .ok (some n)
      | none => .error "invalid literal for int() with base 10"

/-! ### Substring search (the Python `in` operator on strings). -/

def strHasL (needle : List Char) : List Char → Bool
  | [] => needle.isEmpty
  | c :: rest => needle.isPrefixOf (c :: rest) || strHasL needle rest

/-- `needle in hay` for Python strings. -/
def strHas (needle hay : String) : Bool := strHasL needle.toList hay.toList

/-- One character of Python `str.lower()` (ASCII case mapping; the
storage engine error messages searched by the classifier are ASCII). -/
def lowerChar (c : Char) : Char :=
  if 65 ≤ c.toNat ∧ c.toNat ≤ 90 then Char.ofNat (c.toNat + 32) else c

/-- `str.lower()`. -/
def pyLower (s : String) : String := String.mk (s.data.map lowerChar)

/-! ### Row-level upsert outcomes and the error classifier.

The storage engine is an external collaborator: whether a given row's
upsert attempt raises, and with which exception, is an input of the
model, carried on the row.  The message field holds `str(e.orig)` for
the SQLAlchemy `IntegrityError` / `DataError` wrappers and `str(e)`
for any other exception. -/

inductive DbOutcome where
  | ok
  | integrityErr (msg : String)
  | dataErr (msg : String)
  | otherErr (msg : String)
deriving DecidableEq

inductive ErrBucket where
  | fk
  | uq
  | dataB
  | othr
deriving DecidableEq

def fkText : String := "violates foreign key constraint"

def uqText : String := "violates unique constraint"

/-- Error classification of `_import_inscriptions` (import_data.py
lines 326-341): an `IntegrityError` is bucketed by searching
`str(e.orig).lower()` for the foreign-key text, then the
unique-constraint text, else counted as other; a `DataError` is a data
error; any other exception is counted as other.  A successful row is
not classified.  The classifier is a total function: it never raises,
and every unrecognized shape lands in the `othr` bucket. -/
def classifyIns : DbOutcome → Option ErrBucket
  | .ok => none
  | .integrityErr m =>
      if strHas fkText (pyLower m) then some .fk
      else if strHas uqText (pyLower m) then some .uq
      else some .othr
  | .dataErr _ => some .dataB
  | .otherErr _ => some .othr

/-! ### The Enrollment (`Inscription`) stage: `_import_inscriptions`
(import_data.py lines 300-355). -/

/-- The `Inscription` mapped entity (models.py): primary key
`code_inscription`, plus foreign keys and attributes. -/
structure Inscription where
  code_inscription : PyVal
  code_etudiant : PyVal
  annee_universitaire : PyVal
  id_parcours : PyVal
  niveau : PyVal
  formation : PyVal
deriving DecidableEq

/-- One source row of the enrollment table as seen by
`_import_inscriptions`, together with the storage outcome of its
upsert attempt. -/
structure InsRowData where
  code_inscription : PyVal
  code_etudiant : PyVal
  annee_universitaire : PyVal
  id_parcours : PyVal
  niveau : PyVal
  formation : PyVal
  outcome : DbOutcome
deriving DecidableEq

/-- The entity built at lines 313-320: every field except `id_parcours`
goes through `safe_string`; `id_parcours` is taken raw (it was already
cleaned during load). -/
def insEntity (r : InsRowData) : Inscription :=
  { code_inscription := safe_string r.code_inscription
    code_etudiant := safe_string r.code_etudiant
    annee_universitaire := safe_string r.annee_universitaire
    id_parcours := r.id_parcours
    niveau := safe_string r.niveau
    formation := safe_string r.formation }

/-- Primary key under which the entity is merged. -/
def insKey (r : InsRowData) : PyVal := safe_string r.code_inscription

/-- The `dropna(subset=cles_requises)` test of lines 304-305: all five
required key columns non-null. -/
def insReqPresent (r : InsRowData) : Bool :=
  !(isNull r.code_inscription) && !(isNull r.code_etudiant) &&
  !(isNull r.annee_universitaire) && !(isNull r.id_parcours) && !(isNull r.niveau)

inductive InsLogKind where
  | integrite
  | donnees
  | autre
deriving DecidableEq

/-- One line of `import_errors.log` written by `_import_inscriptions`:
category, entity key (the raw `code_inscription` of the row), raw error
detail, and the source row index (`row.name`). -/
structure InsLogEntry where
  kind : InsLogKind
  key : PyVal
  detail : String
  rowIdx : Nat
deriving DecidableEq

/-- The log entry a failing row produces (lines 333, 337, 341). -/
def insLogOf (idx : Nat) (r : InsRowData) : Option InsLogEntry :=
  match r.outcome with
  | .ok => none
  | .integrityErr m => some ⟨.integrite, r.code_inscription, m, idx⟩
  | .dataErr m => some ⟨.donnees, r.code_inscription, m, idx⟩
  | .otherErr m => some ⟨.autre, r.code_inscription, m, idx⟩

/-- State of `_import_inscriptions`: the committed database, the
session view (committed rows plus pending merges), the four error
counters, the log, the trace of loop commits (source index at which
each was issued, and its 1-based position among processed rows), and
the number of rows attempted. -/
structure InsState where
  db : Store PyVal Inscription
  work : Store PyVal Inscription
  fk : Nat
  uq : Nat
  dataE : Nat
  othr : Nat
  logs : List InsLogEntry
  commitIdx : List Nat
  commitPos : List Nat
  attempts : Nat
deriving DecidableEq

/-- One iteration of the row loop (lines 309-341): on success the
entity is merged into the session, and if `(index + 1) % 500 == 0` —
`index` being the pandas label, i.e. the row's position in the
original source — the session is committed; on failure the session is
rolled back to the last committed state, the error is classified,
counted and logged, and the loop continues. -/
def insStep (s : InsState) (p : Nat × InsRowData) : InsState :=
  match p.2.outcome with
  | .ok =>
      let work2 := mergeStore s.work (insKey p.2) (insEntity p.2)
      if (p.1 + 1) % 500 == 0 then
        { s with
          work := work2, db := work2,
          commitIdx := s.commitIdx ++ [p.1],
          commitPos := s.commitPos ++ [s.attempts + 1],
          attempts := s.attempts + 1 }
      else { s with work := work2, attempts := s.attempts + 1 }
  | .integrityErr m =>
      let base : InsState := { s with
        work := s.db,
        logs := s.logs ++ [⟨.integrite, p.2.code_inscription, m, p.1⟩],
        attempts := s.attempts + 1 }
      if strHas fkText (pyLower m) then { base with fk := s.fk + 1 }
      else if strHas uqText (pyLower m) then { base with uq := s.uq + 1 }
      else { base with othr := s.othr + 1 }
  | .dataErr m =>
      { s with
        work := s.db, dataE := s.dataE + 1,
        logs := s.logs ++ [⟨.donnees, p.2.code_inscription, m, p.1⟩],
        attempts := s.attempts + 1 }
  | .otherErr m =>
      { s with
        work := s.db, othr := s.othr + 1,
        logs := s.logs ++ [⟨.autre, p.2.code_inscription, m, p.1⟩],
        attempts := s.attempts + 1 }

/-- Initial state: database and session agree on the pre-existing
committed content. -/
def insInit (s0 : Store PyVal Inscription) : InsState :=
  ⟨s0, s0, 0, 0, 0, 0, [], [], [], 0⟩

/-- The processed rows: `df.dropna(subset=cles_requises)` keeps the
pandas labels (`enum` indices) of the surviving rows. -/
def insDf (src : List InsRowData) : List (Nat × InsRowData) :=
  src.enum.filter (fun p => insReqPresent p.2)

def insLoop (s : InsState) (l : List (Nat × InsRowData)) : InsState :=
  l.foldl insStep s

/-- `_import_inscriptions`: run the row loop over the rows surviving
`dropna`, then issue the final commit (lines 344-345). -/
def insImport (s0 : Store PyVal Inscription) (src : List InsRowData) : InsState :=
  let sEnd := insLoop (insInit s0) (insDf src)
  { sEnd with db := sEnd.work }

/-! ### Per-step and per-loop characterization of `_import_inscriptions`. -/

theorem insStep_attempts (s : InsState) (p : Nat × InsRowData) :
    (insStep s p).attempts = s.attempts + 1 := by
  cases h : p.2.outcome with
  | ok => by_cases hb : (p.1 + 1) % 500 == 0 <;> simp [insStep, h, hb]
  | integrityErr m =>
    by_cases hf : strHas fkText (pyLower m) <;>
      by_cases hu : strHas uqText (pyLower m) <;>
      simp [insStep, h, hf, hu]
  | dataErr m => simp [insStep, h]
  | otherErr m => simp [insStep, h]

theorem insStep_logs (s : InsState) (p : Nat × InsRowData) :
    (insStep s p).logs = s.logs ++ (insLogOf p.1 p.2).toList := by
  cases h : p.2.outcome with
  | ok => by_cases hb : (p.1 + 1) % 500 == 0 <;> simp [insStep, insLogOf, h, hb]
  | integrityErr m =>
    by_cases hf : strHas fkText (pyLower m) <;>
      by_cases hu : strHas uqText (pyLower m) <;>
      simp [insStep, insLogOf, h, hf, hu]
  | dataErr m => simp [insStep, insLogOf, h]
  | otherErr m => simp [insStep, insLogOf, h]

theorem insStep_fk (s : InsState) (p : Nat × InsRowData) :
    (insStep s p).fk =
      s.fk + (if classifyIns p.2.outcome == some ErrBucket.fk then 1 else 0) := by
  cases h : p.2.outcome with
  | ok => simp [insStep, classifyIns, h]; split <;> simp
  | integrityErr m =>
    by_cases hf : strHas fkText (pyLower m) <;>
      by_cases hu : strHas uqText (pyLower m) <;>
      simp [insStep, classifyIns, h, hf, hu]
  | dataErr m => simp [insStep, classifyIns, h]
  | otherErr m => simp [insStep, classifyIns, h]

theorem insStep_uq (s : InsState) (p : Nat × InsRowData) :
    (insStep s p).uq =
      s.uq + (if classifyIns p.2.outcome == some ErrBucket.uq then 1 else 0) := by
  cases h : p.2.outcome with
  | ok => simp [insStep, classifyIns, h]; split <;> simp
  | integrityErr m =>
    by_cases hf : strHas fkText (pyLower m) <;>
      by_cases hu : strHas uqText (pyLower m) <;>
      simp [insStep, classifyIns, h, hf, hu]
  | dataErr m => simp [insStep, classifyIns, h]
  | otherErr m => simp [insStep, classifyIns, h]

theorem insStep_dataE (s : InsState) (p : Nat × InsRowData) :
    (insStep s p).dataE =
      s.dataE + (if classifyIns p.2.outcome == some ErrBucket.dataB then 1 else 0) := by
  cases h : p.2.outcome with
  | ok => simp [insStep, classifyIns, h]; split <;> simp
  | integrityErr m =>
    by_cases hf : strHas fkText (pyLower m) <;>
      by_cases hu : strHas uqText (pyLower m) <;>
      simp [insStep, classifyIns, h, hf, hu]
  | dataErr m => simp [insStep, classifyIns, h]
  | otherErr m => simp [insStep, classifyIns, h]

theorem insStep_othr (s : InsState) (p : Nat × InsRowData) :
    (insStep s p).othr =
      s.othr + (if classifyIns p.2.outcome == some ErrBucket.othr then 1 else 0) := by
  cases h : p.2.outcome with
  | ok => simp [insStep, classifyIns, h]; split <;> simp
  | integrityErr m =>
    by_cases hf : strHas fkText (pyLower m) <;>
      by_cases hu : strHas uqText (pyLower m) <;>
      simp [insStep, classifyIns, h, hf, hu]
  | dataErr m => simp [insStep, classifyIns, h]
  | otherErr m => simp [insStep, classifyIns, h]

theorem insStep_commitIdx (s : InsState) (p : Nat × InsRowData) :
    (insStep s p).commitIdx = s.commitIdx ++
      (if (p.2.outcome == DbOutcome.ok) && ((p.1 + 1) % 500 == 0) then [p.1] else []) := by
  cases h : p.2.outcome with
  | ok =>
    by_cases hb : (p.1 + 1) % 500 == 0
    · simp [insStep, h, hb]
    · simp [insStep, h, hb]
  | integrityErr m =>
    by_cases hf : strHas fkText (pyLower m) <;>
      by_cases hu : strHas uqText (pyLower m) <;>
      simp [insStep, h, hf, hu]
  | dataErr m => simp [insStep, h]
  | otherErr m => simp [insStep, h]

theorem insLoop_cons (s : InsState) (p : Nat × InsRowData)
    (l : List (Nat × InsRowData)) :
    insLoop s (p :: l) = insLoop (insStep s p) l := rfl

theorem insLoop_spec (l : List (Nat × InsRowData)) (s : InsState) :
    (insLoop s l).attempts = s.attempts + l.length ∧
    (insLoop s l).logs = s.logs ++ l.filterMap (fun p => insLogOf p.1 p.2) ∧
    (insLoop s l).fk =
      s.fk + l.countP (fun p => classifyIns p.2.outcome == some ErrBucket.fk) ∧
    (insLoop s l).uq =
      s.uq + l.countP (fun p => classifyIns p.2.outcome == some ErrBucket.uq) ∧
    (insLoop s l).dataE =
      s.dataE + l.countP (fun p => classifyIns p.2.outcome == some ErrBucket.dataB) ∧
    (insLoop s l).othr =
      s.othr + l.countP (fun p => classifyIns p.2.outcome == some ErrBucket.othr) ∧
    (insLoop s l).commitIdx = s.commitIdx ++
      (l.filter (fun p => (p.2.outcome == DbOutcome.ok) &&
        ((p.1 + 1) % 500 == 0))).map Prod.fst := by
  induction l generalizing s with
  | nil => simp [insLoop]
  | cons p l ih =>
    obtain ⟨ha, hl, hfk, huq, hd, ho, hc⟩ := ih (insStep s p)
    rw [insLoop_cons]
    refine ⟨?_, ?_, ?_, ?_, ?_, ?_, ?_⟩
    · rw [ha, insStep_attempts, List.length_cons]
      ring
    · rw [hl, insStep_logs]
      cases hel : insLogOf p.1 p.2 <;> simp [hel, List.filterMap_cons]
    · rw [hfk, insStep_fk, List.countP_cons]
      by_cases hb : classifyIns p.2.outcome == some ErrBucket.fk <;> simp [hb] <;> ring
    · rw [huq, insStep_uq, List.countP_cons]
      by_cases hb : classifyIns p.2.outcome == some ErrBucket.uq <;> simp [hb] <;> ring
    · rw [hd, insStep_dataE, List.countP_cons]
      by_cases hb : classifyIns p.2.outcome == some ErrBucket.dataB <;> simp [hb] <;> ring
    · rw [ho, insStep_othr, List.countP_cons]
      by_cases hb : classifyIns p.2.outcome == some ErrBucket.othr <;> simp [hb] <;> ring
    · rw [hc, insStep_commitIdx, List.filter_cons]
      by_cases hb : (p.2.outcome == DbOutcome.ok) && ((p.1 + 1) % 500 == 0) <;>
        simp [hb]

/-! ### Durability of committed rows across later failures. -/

/-- Invariant of the session: every key committed in the database is
also visible in the session view (merges only add, rollback resets the
view to the committed state). -/
def dbVisible (s : InsState) : Prop :=
  ∀ k, (lookupStore s.db k).isSome = true → (lookupStore s.work k).isSome = true

theorem lookupStore_mergeStore_isSome {κ φ : Type} [DecidableEq κ]
    (st : Store κ φ) (k k2 : κ) (v : φ)
    (h : (lookupStore st k).isSome = true) :
    (lookupStore (mergeStore st k2 v) k).isSome = true := by
  by_cases hk : k = k2
  · subst hk
    rw [lookupStore_mergeStore_self]
    rfl
  · rw [lookupStore_mergeStore_other st k2 k v hk]
    exact h

theorem insStep_dbVisible (s : InsState) (p : Nat × InsRowData)
    (h : dbVisible s) :
    dbVisible (insStep s p) ∧
      (∀ k, (lookupStore s.db k).isSome = true →
        (lookupStore (insStep s p).db k).isSome = true) := by
  cases ho : p.2.outcome with
  | ok =>
    by_cases hb : (p.1 + 1) % 500 == 0
    · constructor
      · intro k hk
        simp only [insStep, ho, hb, if_pos] at hk ⊢
        exact hk
      · intro k hk
        simp only [insStep, ho, hb, if_pos]
        exact lookupStore_mergeStore_isSome _ _ _ _ (h k hk)
    · constructor
      · intro k hk
        simp only [insStep, ho, hb] at hk ⊢
        rw [if_neg (by simpa using hb)] at hk ⊢
        exact lookupStore_mergeStore_isSome _ _ _ _ (h k hk)
      · intro k hk
        simp only [insStep, ho, hb]
        rw [if_neg (by simpa using hb)]
        exact hk
  | integrityErr m =>
    refine ⟨fun k hk => ?_, fun k hk => ?_⟩ <;>
      by_cases hf : strHas fkText (pyLower m) <;>
        by_cases hu : strHas uqText (pyLower m) <;>
        simp only [insStep, ho, hf, hu, if_pos, if_neg, Bool.false_eq_true,
          not_false_iff, ite_true, ite_false] at hk ⊢ <;>
        exact hk
  | dataErr m =>
    exact ⟨fun k hk => by simpa [insStep, ho] using (by simpa [insStep, ho] using hk),
      fun k hk => by simpa [insStep, ho] using hk⟩
  | otherErr m =>
    exact ⟨fun k hk => by simpa [insStep, ho] using (by simpa [insStep, ho] using hk),
      fun k hk => by simpa [insStep, ho] using hk⟩

theorem insLoop_dbVisible (l : List (Nat × InsRowData)) (s : InsState)
    (h : dbVisible s) :
    dbVisible (insLoop s l) ∧
      (∀ k, (lookupStore s.db k).isSome = true →
        (lookupStore (insLoop s l).db k).isSome = true) := by
  induction l generalizing s with
  | nil => exact ⟨h, fun k hk => hk⟩
  | cons p l ih =>
    rw [insLoop_cons]
    obtain ⟨h1, h2⟩ := insStep_dbVisible s p h
    obtain ⟨h3, h4⟩ := ih (insStep s p) h1
    exact ⟨h3, fun k hk => h4 k (h2 k hk)⟩

/-! ### The Student (`Etudiant`) stage: `_import_etudiants`
(import_data.py lines 245-297). -/

/-- The `Etudiant` mapped entity (models.py): primary key
`code_etudiant`; `bacc_annee` is an integer column, the two date
columns hold dates. -/
structure Etudiant where
  code_etudiant : PyVal
  numero_inscription : PyVal
  nom : PyVal
  prenoms : PyVal
  sexe : PyVal
  naissance_date : Option Nat
  naissance_lieu : PyVal
  nationalite : PyVal
  bacc_annee : Option Int
  bacc_serie : PyVal
  bacc_centre : PyVal
  adresse : PyVal
  telephone : PyVal
  mail : PyVal
  cin : PyVal
  cin_date : Option Nat
  cin_lieu : PyVal
deriving DecidableEq

/-- One source row of the enrollment file as seen by
`_import_etudiants`, with the storage outcome of its own
merge-and-commit attempt. -/
structure EtuRowData where
  code_etudiant : PyVal
  numero_inscription : PyVal
  nom : PyVal
  prenoms : PyVal
  sexe : PyVal
  naissance_date : PyVal
  naissance_lieu : PyVal
  nationalite : PyVal
  bacc_annee : PyVal
  bacc_serie : PyVal
  bacc_centre : PyVal
  adresse : PyVal
  telephone : PyVal
  mail : PyVal
  cin : PyVal
  cin_date : PyVal
  cin_lieu : PyVal
  outcome : DbOutcome
deriving DecidableEq

/-- `row[col] if isinstance(row[col], date) else None` (lines 255-256). -/
def pyDateOf : PyVal → Option Nat
  | .date d => some d
  | _ => none

/-- The entity built at lines 258-276: text fields through
`safe_string`, dates through the `isinstance` guard, `bacc_annee`
through `int(...)` (which can only be reached when the coercion
succeeded). -/
def etuEntity (r : EtuRowData) : Etudiant :=
  { code_etudiant := safe_string r.code_etudiant
    numero_inscription := safe_string r.numero_inscription
    nom := safe_string r.nom
    prenoms := safe_string r.prenoms
    sexe := safe_string r.sexe
    naissance_date := pyDateOf r.naissance_date
    naissance_lieu := safe_string r.naissance_lieu
    nationalite := safe_string r.nationalite
    bacc_annee := match pyIntOf r.bacc_annee with
      | .ok b => b
      | .error _ => none
    bacc_serie := safe_string r.bacc_serie
    bacc_centre := safe_string r.bacc_centre
    adresse := safe_string r.adresse
    telephone := safe_string r.telephone
    mail := safe_string r.mail
    cin := safe_string r.cin
    cin_date := pyDateOf r.cin_date
    cin_lieu := safe_string r.cin_lieu }

/-- Primary key under which the student is merged. -/
def etuKey (r : EtuRowData) : PyVal := safe_string r.code_etudiant

/-- The message with which a row's try block fails, if it fails: the
`int()` coercion of `bacc_annee` can raise `ValueError` before the
merge (its message is not lowercased since a `ValueError` has no
`orig`, line 283); otherwise the storage outcome decides, with
`str(e.orig).lower()` for the SQLAlchemy wrapper exceptions and a
plain `str(e)` otherwise. -/
def etuFailMsg (r : EtuRowData) : Option String :=
  match pyIntOf r.bacc_annee with
  | .error m => some m
  | .ok _ =>
    match r.outcome with
    | .ok => none
    | .integrityErr m => some (pyLower m)
    | .dataErr m => some (pyLower m)
    | .otherErr m => some m

def etuRowFails (r : EtuRowData) : Bool := (etuFailMsg r).isSome

/-- The marker searched for at line 286 to report a length violation. -/
def truncText : String := "stringdatarighttruncation"

/-- One line of `import_errors.log` written by `_import_etudiants`
(lines 292 and 295): whether it is the truncation-classified format,
the raw `code_etudiant`, the error message, the source row index. -/
structure EtuLogEntry where
  trunc : Bool
  key : PyVal
  detail : String
  rowIdx : Nat
deriving DecidableEq

def etuLogOf (idx : Nat) (r : EtuRowData) : Option EtuLogEntry :=
  match etuFailMsg r with
  | some m => some ⟨strHas truncText m, r.code_etudiant, m, idx⟩
  | none => none

/-- State of `_import_etudiants`.  Because every successful row commits
immediately and every failing row rolls back a session holding only its
own merge, the committed database and the session view coincide at each
loop boundary; a single store suffices. -/
structure EtuState where
  db : Store PyVal Etudiant
  errs : Nat
  logs : List EtuLogEntry
  attempts : Nat
deriving DecidableEq

/-- One iteration of the row loop (lines 251-295): build the entity
(the `int()` coercion may raise first), merge and commit on success;
on failure roll back, count the error, and log it (truncation format
when `str(e)` contains the marker). -/
def etuStep (s : EtuState) (p : Nat × EtuRowData) : EtuState :=
  match etuFailMsg p.2 with
  | none =>
      { s with
        db := mergeStore s.db (etuKey p.2) (etuEntity p.2),
        attempts := s.attempts + 1 }
  | some m =>
      { s with
        errs := s.errs + 1,
        logs := s.logs ++ [⟨strHas truncText m, p.2.code_etudiant, m, p.1⟩],
        attempts := s.attempts + 1 }

/-- `df.drop_duplicates(subset=['code_etudiant']).dropna(subset=['code_etudiant'])`
(line 248), keeping the original pandas labels. -/
def etuPrepare (src : List EtuRowData) : List (Nat × EtuRowData) :=
  (dedupFirst (fun p => p.2.code_etudiant) src.enum []).filter
    (fun p => !(isNull p.2.code_etudiant))

def etuLoop (s : EtuState) (l : List (Nat × EtuRowData)) : EtuState :=
  l.foldl etuStep s

/-- `_import_etudiants`: prepare, then run the per-row loop. -/
def etuImport (s0 : Store PyVal Etudiant) (src : List EtuRowData) : EtuState :=
  etuLoop ⟨s0, 0, [], 0⟩ (etuPrepare src)

theorem etuLoop_cons (s : EtuState) (p : Nat × EtuRowData)
    (l : List (Nat × EtuRowData)) :
    etuLoop s (p :: l) = etuLoop (etuStep s p) l := rfl

theorem etuLoop_spec (l : List (Nat × EtuRowData)) (s : EtuState) :
    (etuLoop s l).attempts = s.attempts + l.length ∧
    (etuLoop s l).errs = s.errs + l.countP (fun p => etuRowFails p.2) ∧
    (etuLoop s l).logs = s.logs ++ l.filterMap (fun p => etuLogOf p.1 p.2) := by
  induction l generalizing s with
  | nil => simp [etuLoop]
  | cons p l ih =>
    obtain ⟨ha, he, hl⟩ := ih (etuStep s p)
    rw [etuLoop_cons]
    refine ⟨?_, ?_, ?_⟩
    · rw [ha, List.length_cons]
      cases hm : etuFailMsg p.2 <;> simp [etuStep, hm] <;> ring
    · rw [he, List.countP_cons]
      cases hm : etuFailMsg p.2 <;>
        simp [etuStep, hm, etuRowFails] <;> ring
    · rw [hl]
      cases hm : etuFailMsg p.2 <;>
        simp [etuStep, etuLogOf, hm, List.filterMap_cons]

theorem etuLoop_db (l : List (Nat × EtuRowData)) (s : EtuState)
    (hfresh : ∀ p ∈ l, etuFailMsg p.2 = none → lookupStore s.db (etuKey p.2) = none)
    (hnodup : ((l.filter (fun p => !(etuRowFails p.2))).map
      (fun p => etuKey p.2)).Nodup) :
    (etuLoop s l).db =
      s.db ++ (l.filter (fun p => !(etuRowFails p.2))).map
        (fun p => (etuKey p.2, etuEntity p.2)) := by
  induction l generalizing s with
  | nil => simp [etuLoop]
  | cons p l ih =>
    rw [etuLoop_cons]
    cases hm : etuFailMsg p.2 with
    | some m =>
      have hfail : etuRowFails p.2 = true := by simp [etuRowFails, hm]
      have hdb : (etuStep s p).db = s.db := by simp [etuStep, hm]
      have hfilter : (p :: l).filter (fun q => !(etuRowFails q.2)) =
          l.filter (fun q => !(etuRowFails q.2)) := by
        simp [List.filter_cons, hfail]
      rw [hfilter]
      rw [hfilter] at hnodup
      have := ih (etuStep s p)
        (fun q hq hqok => by rw [hdb]; exact hfresh q (List.mem_cons_of_mem p hq) hqok)
        hnodup
      rw [this, hdb]
    | none =>
      have hok : etuRowFails p.2 = false := by simp [etuRowFails, hm]
      have hkey : lookupStore s.db (etuKey p.2) = none :=
        hfresh p (List.mem_cons_self p l) hm
      have hdb : (etuStep s p).db = s.db ++ [(etuKey p.2, etuEntity p.2)] := by
        simp [etuStep, hm, mergeStore_of_absent _ hkey]
      have hfilter : (p :: l).filter (fun q => !(etuRowFails q.2)) =
          p :: l.filter (fun q => !(etuRowFails q.2)) := by
        simp [List.filter_cons, hok]
      rw [hfilter] at hnodup
      rw [List.map_cons, List.nodup_cons] at hnodup
      have hfresh2 : ∀ q ∈ l, etuFailMsg q.2 = none →
          lookupStore (etuStep s p).db (etuKey q.2) = none := by
        intro q hq hqok
        rw [hdb, lookupStore_append,
          hfresh q (List.mem_cons_of_mem p hq) hqok]
        have hqkey : etuKey q.2 ≠ etuKey p.2 := by
          intro hc
          apply hnodup.1
          rw [← hc]
          exact List.mem_map_of_mem _ (List.mem_filter.mpr
            ⟨hq, by simp [etuRowFails, hqok]⟩)
        simp [lookupStore, hqkey]
      rw [ih (etuStep s p) hfresh2 hnodup.2, hdb, hfilter, List.map_cons,
        List.append_assoc, List.singleton_append]

/-! ### The Institution stage prepare step: `_import_institutions`
(import_data.py lines 46-51). -/

/-- pandas `astype(str)` on an object column applies Python `str(x)`
to each cell: `None` becomes the literal four-character string
`"None"`; a string is unchanged; numeric and date cells become their
textual representation (its exact spelling is irrelevant here — no
claim inspects it — only the fact that the result is a string). -/
def pyAstypeStr : PyVal → PyVal
  | .null => .str (cpsOf "None")
  | .str l => .str l
  | .num q => .str (cpsOf (toString q.num))
  | .date d => .str (cpsOf (toString d))

/-- One row of the Institutions source file. -/
structure InstRowData where
  institution_id : PyVal
  institution_nom : PyVal
  institution_type : PyVal
deriving DecidableEq

/-- Line 50: `df['institution_id'].astype(str).apply(safe_string)`. -/
def instClean (r : InstRowData) : InstRowData :=
  { r with institution_id := safe_string (pyAstypeStr r.institution_id) }

/-- Line 51:
`df.drop_duplicates(subset=['institution_id']).dropna(subset=['institution_id'])`,
applied after the key column was string-coerced by line 50. -/
def instPrepare (src : List InstRowData) : List InstRowData :=
  (dedupFirst (fun r => r.institution_id) (src.map instClean) []).filter
    (fun r => !(isNull r.institution_id))

theorem isNull_safe_string_astype (v : PyVal) :
    isNull (safe_string (pyAstypeStr v)) = false := by
  cases v <;> rfl

/-- The `dropna` of line 51 is a no-op: after `astype(str)` every key
cell is a string, so no row is ever dropped for a null key. -/
theorem instPrepare_eq_dedup (src : List InstRowData) :
    instPrepare src =
      dedupFirst (fun r => r.institution_id) (src.map instClean) [] := by
  rw [instPrepare]
  apply List.filter_eq_self.mpr
  intro r hr
  have hsub := dedupFirst_subset (fun r : InstRowData => r.institution_id)
    (src.map instClean) [] hr
  obtain ⟨r0, _, hr0⟩ := List.mem_map.mp hsub
  rw [← hr0]
  simp [instClean, isNull_safe_string_astype]

/-! ### The metadata-phase driver: `import_metadata_to_db`
(import_data.py lines 166-199).

Stage outcomes are inputs of the model: whether `_import_institutions`
returns `True` (it catches its own exceptions, commits on success and
rolls back on failure, lines 42-67), whether `_load_and_clean_metadata`
returns a dataframe (lines 141-160), and whether each of the four
helper stages raises (none of them has its own `try`, so any exception
they raise reaches the driver's single `except`). -/
structure MetaEnv where
  instOk : Bool
  loadOk : Bool
  compFails : Bool
  domFails : Bool
  menFails : Bool
  parcFails : Bool
deriving DecidableEq

/-- Observable outcome of the metadata phase: whether stage 1 committed
its own transaction, which of stages 2-5 started executing
(2 = Composante, 3 = Domaine, 4 = Mention, 5 = Parcours), whether the
group commit of line 192 ran, and whether the driver's `except` rolled
the session back. -/
structure MetaResult where
  stage1Committed : Bool
  ran : List Nat
  groupCommitted : Bool
  rolledBack : Bool
deriving DecidableEq

/-- The driver's control flow: an early `return` when stage 1 fails
(line 176-177) or the metadata load fails (line 181-182); otherwise
stages 2-5 run in order inside the single `try`, the first exception
jumping to the `except` of line 195 which rolls back; the group commit
of line 192 runs only when all four stages returned normally. -/
def metaImport (env : MetaEnv) : MetaResult :=
  if !env.instOk then ⟨false, [], false, false⟩
  else if !env.loadOk then ⟨true, [], false, false⟩
  else if env.compFails then ⟨true, [2], false, true⟩
  else if env.domFails then ⟨true, [2, 3], false, true⟩
  else if env.menFails then ⟨true, [2, 3, 4], false, true⟩
  else if env.parcFails then ⟨true, [2, 3, 4, 5], false, true⟩
  else ⟨true, [2, 3, 4, 5], true, false⟩

/-! ### Assorted helper lemmas for the claim theorems. -/

theorem filter_all_self {α : Type} (p : α → Bool) (l : List α) :
    (l.filter p).all p = true := by
  rw [List.all_eq_true]
  intro x hx
  exact (List.mem_filter.mp hx).2

theorem countP_eq_of_filter_all {α : Type} (p q : α → Bool) (l : List α)
    (himp : ∀ x, q x = true → p x = true)
    (hall : (l.filter p).all q = true) : l.countP q = l.countP p := by
  induction l with
  | nil => rfl
  | cons a l ih =>
    rw [List.filter_cons] at hall
    cases hp : p a with
    | true =>
      rw [if_pos (by simp [hp])] at hall
      rw [List.all_cons, Bool.and_eq_true] at hall
      rw [List.countP_cons, List.countP_cons, ih hall.2]
      simp [hp, hall.1]
    | false =>
      rw [if_neg (by simp [hp])] at hall
      have hq : q a = false := by
        cases hqa : q a
        · rfl
        · exact absurd (himp a hqa) (by simp [hp])
      rw [List.countP_cons, List.countP_cons, ih hall]
      simp [hp, hq]

theorem countP_enumFrom {α : Type} (q : α → Bool) (l : List α) (n : Nat) :
    (l.enumFrom n).countP (fun p => q p.2) = l.countP q := by
  induction l generalizing n with
  | nil => rfl
  | cons a l ih =>
    rw [List.enumFrom, List.countP_cons, List.countP_cons, ih]

theorem countP_enum {α : Type} (q : α → Bool) (l : List α) :
    l.enum.countP (fun p => q p.2) = l.countP q :=
  countP_enumFrom q l 0

/-- Every non-`ok` outcome falls in exactly one bucket. -/
theorem classify_one (o : DbOutcome) :
    ((if classifyIns o == some ErrBucket.fk then 1 else 0) : Nat) +
    (if classifyIns o == some ErrBucket.uq then 1 else 0) +
    (if classifyIns o == some ErrBucket.dataB then 1 else 0) +
    (if classifyIns o == some ErrBucket.othr then 1 else 0) =
      (if !(o == DbOutcome.ok) then 1 else 0) := by
  cases o with
  | ok => rfl
  | integrityErr m =>
    by_cases hf : strHas fkText (pyLower m) <;>
      by_cases hu : strHas uqText (pyLower m) <;>
      simp [classifyIns, hf, hu]
  | dataErr m => rfl
  | otherErr m => rfl

/-- The four bucket counts sum to the number of failing rows. -/
theorem classify_buckets_sum (l : List (Nat × InsRowData)) :
    l.countP (fun p => classifyIns p.2.outcome == some ErrBucket.fk) +
    l.countP (fun p => classifyIns p.2.outcome == some ErrBucket.uq) +
    l.countP (fun p => classifyIns p.2.outcome == some ErrBucket.dataB) +
    l.countP (fun p => classifyIns p.2.outcome == some ErrBucket.othr) =
      l.countP (fun p => !(p.2.outcome == DbOutcome.ok)) := by
  induction l with
  | nil => rfl
  | cons p l ih =>
    have h1 := classify_one p.2.outcome
    simp only [List.countP_cons]
    omega

/-- How often the truncation-formatted log line occurs. -/
def etuTruncFail (r : EtuRowData) : Bool :=
  match etuFailMsg r with
  | some m => strHas truncText m
  | none => false

theorem countP_trunc_logs (l : List (Nat × EtuRowData)) :
    (l.filterMap (fun p => etuLogOf p.1 p.2)).countP (fun e => e.trunc) =
      l.countP (fun p => etuTruncFail p.2) := by
  induction l with
  | nil => rfl
  | cons p l ih =>
    cases hm : etuFailMsg p.2 with
    | none =>
      have h1 : etuLogOf p.1 p.2 = none := by rw [etuLogOf, hm]
      have h2 : etuTruncFail p.2 = false := by rw [etuTruncFail, hm]
      simp only [List.filterMap_cons, h1, List.countP_cons, h2, ih]
      simp
    | some m =>
      have h1 : etuLogOf p.1 p.2 =
          some ⟨strHas truncText m, p.2.code_etudiant, m, p.1⟩ := by
        rw [etuLogOf, hm]
      have h2 : etuTruncFail p.2 = strHas truncText m := by
        rw [etuTruncFail, hm]
      simp only [List.filterMap_cons, h1, List.countP_cons, h2, ih]

theorem safe_string_str_valid (l : List Nat) (h : ∀ c ∈ l, c < 0x110000) :
    safe_string (PyVal.str l) =
      PyVal.str ((pyStrip l).filter (fun c => !isSurrogate c)) := by
  rw [show safe_string (PyVal.str l) = PyVal.str (safeStringCps l) from rfl,
    safeStringCps, decodeUtf8_encodeUtf8 _ (fun c hc => h c (mem_pyStrip_subset hc))]

theorem filter_surrogate_eq_self (l : List Nat)
    (h : ∀ c ∈ l, isSurrogate c = false) :
    l.filter (fun c => !isSurrogate c) = l :=
  List.filter_eq_self.mpr (fun a ha => by simp [h a ha])

theorem countP_bool_split {α : Type} (p : α → Bool) (l : List α) :
    l.countP p + l.countP (fun a => !(p a)) = l.length := by
  induction l with
  | nil => rfl
  | cons a l ih => cases hp : p a <;> simp [List.countP_cons, hp] <;> omega

/-! ## The claims. -/

/-- C9: the text normalizer `safe_string` passes every non-string or
absent input through unchanged; on every string it returns the string
trimmed of leading and trailing whitespace with the unencodable
(surrogate) code points dropped — not replaced — by the UTF-8
round-trip under `errors='ignore'`; it is a total function, so it never
raises. -/
theorem c9_safe_string_spec :
    (∀ v : PyVal, (∀ l, v ≠ PyVal.str l) → safe_string v = v) ∧
    (∀ l : List Nat, (∀ c ∈ l, c < 0x110000) →
      safe_string (PyVal.str l) =
        PyVal.str ((pyStrip l).filter (fun c => !isSurrogate c))) := by
  constructor
  · intro v hv
    cases v with
    | null => rfl
    | str l => exact absurd rfl (hv l)
    | num q => rfl
    | date d => rfl
  · exact safe_string_str_valid

theorem c9_safe_string_spec_witness :
    safe_string (PyVal.num 3) = PyVal.num 3 ∧
    safe_string (PyVal.str [32, 0xD800, 97, 32]) = PyVal.str [97] := by
  constructor
  · exact c9_safe_string_spec.1 (PyVal.num 3) (fun l h => PyVal.noConfusion h)
  · rw [c9_safe_string_spec.2 [32, 0xD800, 97, 32] (by decide)]
    decide

def c10Example : PyVal := PyVal.str [0xD800, 32, 97]

/-- C10 counterexample: `safe_string` is not idempotent.  On the Python
string `"\ud800 a"` the first pass strips nothing (the string starts
with a surrogate, not whitespace) and then drops the surrogate, leaving
`" a"`; the second pass strips the now-leading space. -/
theorem c10_counterexample :
    safe_string (safe_string c10Example) ≠ safe_string c10Example := by
  decide

/-- C10 amended: `safe_string` is idempotent on every non-string input
and on every string free of surrogate code points (all decodable text);
only a surrogate adjacent to boundary whitespace can break idempotence,
because dropping it during encoding exposes fresh leading or trailing
whitespace that only the second pass strips. -/
theorem c10_amended (v : PyVal)
    (hval : ∀ l, v = PyVal.str l → ∀ c ∈ l, c < 0x110000)
    (hsur : ∀ l, v = PyVal.str l → ∀ c ∈ l, isSurrogate c = false) :
    safe_string (safe_string v) = safe_string v := by
  cases v with
  | null => rfl
  | num q => rfl
  | date d => rfl
  | str l =>
    have hv := hval l rfl
    have hs := hsur l rfl
    have hv1 : ∀ c ∈ pyStrip l, c < 0x110000 :=
      fun c hc => hv c (mem_pyStrip_subset hc)
    have hs1 : ∀ c ∈ pyStrip l, isSurrogate c = false :=
      fun c hc => hs c (mem_pyStrip_subset hc)
    have h1 : safe_string (PyVal.str l) = PyVal.str (pyStrip l) := by
      rw [safe_string_str_valid l hv, filter_surrogate_eq_self _ hs1]
    rw [h1, safe_string_str_valid (pyStrip l) hv1,
      filter_surrogate_eq_self _ (fun c hc => hs1 c (mem_pyStrip_subset hc)),
      pyStrip_idem]

theorem c10_amended_witness :
    safe_string (safe_string (PyVal.str [32, 200000, 97, 9])) =
      safe_string (PyVal.str [32, 200000, 97, 9]) :=
  c10_amended (PyVal.str [32, 200000, 97, 9])
    (fun l h => by
      injection h with h2
      subst h2
      decide)
    (fun l h => by
      injection h with h2
      subst h2
      decide)

def mkEtuRow (code : String) (o : DbOutcome) : EtuRowData :=
  { code_etudiant := PyVal.str (cpsOf code), numero_inscription := PyVal.null,
    nom := PyVal.null, prenoms := PyVal.null, sexe := PyVal.null,
    naissance_date := PyVal.null, naissance_lieu := PyVal.null,
    nationalite := PyVal.null, bacc_annee := PyVal.null,
    bacc_serie := PyVal.null, bacc_centre := PyVal.null,
    adresse := PyVal.null, telephone := PyVal.null, mail := PyVal.null,
    cin := PyVal.null, cin_date := PyVal.null, cin_lieu := PyVal.null,
    outcome := o }

def c8BadRow : EtuRowData :=
  { mkEtuRow "E1" DbOutcome.ok with bacc_annee := PyVal.str (cpsOf "abc") }

/-- C8 counterexample: a non-numeric value is not mapped to null.
`int("abc")` raises `ValueError`, and the student row carrying it fails
(counted and skipped: nothing stored), rather than being stored with a
null `bacc_annee`. -/
theorem c8_counterexample :
    pyIntOf (PyVal.str (cpsOf "abc")) =
      Except.error "invalid literal for int() with base 10" ∧
    (etuImport [] [c8BadRow]).errs = 1 ∧
    (etuImport [] [c8BadRow]).db = [] := by
  refine ⟨rfl, by decide, by decide⟩

/-- C8 amended: the inline `int(...)` coercion maps an absent value to
null and a numeric value to its truncation toward zero, but a
non-numeric string raises `ValueError` instead of yielding null; in the
Student stage that exception fails the row (it is counted among the
row errors, exactly like a storage failure). -/
theorem c8_amended :
    pyIntOf PyVal.null = Except.ok none ∧
    (∀ q : ℚ, pyIntOf (PyVal.num q) = Except.ok (some (pyTrunc q))) ∧
    (∀ l : List Nat, pyIntParse l = none →
      pyIntOf (PyVal.str l) =
        Except.error "invalid literal for int() with base 10") ∧
    (∀ (s0 : Store PyVal Etudiant) (src : List EtuRowData),
      (etuImport s0 src).errs =
        (etuPrepare src).countP (fun p => etuRowFails p.2)) := by
  refine ⟨rfl, fun q => rfl, ?_, ?_⟩
  · intro l h
    rw [pyIntOf, h]
  · intro s0 src
    have h := (etuLoop_spec (etuPrepare src) ⟨s0, 0, [], 0⟩).2.1
    simpa [etuImport] using h

theorem c8_amended_witness :
    pyIntOf (PyVal.str (cpsOf "x7")) =
      Except.error "invalid literal for int() with base 10" :=
  c8_amended.2.2.1 (cpsOf "x7") (by decide)

/-- C4: the upsert (`session.merge`, modelled by `mergeStore`, the
operation used by every import stage) is idempotent by key: merging the
same primary key twice leaves exactly one stored row for that key,
carrying the most recently merged field values, and preserves key
uniqueness of the store. -/
theorem c4_upsert_idempotent {κ φ : Type} [DecidableEq κ]
    (st : Store κ φ) (k : κ) (v1 v2 : φ)
    (h : (storeKeys st).Nodup) :
    countKey (mergeStore (mergeStore st k v1) k v2) k = 1 ∧
    lookupStore (mergeStore (mergeStore st k v1) k v2) k = some v2 ∧
    (storeKeys (mergeStore (mergeStore st k v1) k v2)).Nodup := by
  have h1 := storeKeys_nodup_mergeStore st k v1 h
  exact ⟨countKey_mergeStore_self _ k v2 h1, lookupStore_mergeStore_self _ k v2,
    storeKeys_nodup_mergeStore _ k v2 h1⟩

theorem c4_upsert_idempotent_witness :
    countKey (mergeStore (mergeStore [((0 : Nat), (10 : Nat))] 1 5) 1 7) 1 = 1 ∧
    lookupStore (mergeStore (mergeStore [((0 : Nat), (10 : Nat))] 1 5) 1 7) 1 =
      some 7 ∧
    (storeKeys (mergeStore (mergeStore [((0 : Nat), (10 : Nat))] 1 5) 1 7)).Nodup :=
  c4_upsert_idempotent [(0, 10)] 1 5 7 (by decide)

def c7NullRow : InstRowData := ⟨PyVal.null, PyVal.null, PyVal.null⟩

/-- Line 226 of `_load_and_clean_inscriptions`:
`df['id_parcours'] = df['id_parcours'].astype(str).apply(safe_string)`,
run on the enrollment dataframe before `_import_inscriptions` ever sees
it. -/
def insLoadClean (r : InsRowData) : InsRowData :=
  { r with id_parcours := safe_string (pyAstypeStr r.id_parcours) }

/-- The four Enrollment `dropna` keys that reach line 305 without any
string coercion. -/
def insRawKeysPresent (r : InsRowData) : Bool :=
  !(isNull r.code_inscription) && !(isNull r.code_etudiant) &&
  !(isNull r.annee_universitaire) && !(isNull r.niveau)

theorem mem_enumFrom_snd {α : Type} {l : List α} {n : Nat} {p : Nat × α}
    (h : p ∈ l.enumFrom n) : p.2 ∈ l := by
  induction l generalizing n with
  | nil => cases h
  | cons a l ih =>
    rw [List.enumFrom, List.mem_cons] at h
    rcases h with h | h
    · rw [h]
      exact List.mem_cons_self _ _
    · exact List.mem_cons_of_mem _ (ih h)

def c7InsRow : InsRowData :=
  { code_inscription := PyVal.str (cpsOf "I9"),
    code_etudiant := PyVal.str (cpsOf "S9"),
    annee_universitaire := PyVal.str (cpsOf "2023-2024"),
    id_parcours := PyVal.null,
    niveau := PyVal.str (cpsOf "L1"),
    formation := PyVal.null,
    outcome := DbOutcome.ok }

/-- C7 counterexample: rows with a null mandatory key survive the
prepare step wherever the key column is string-coerced first.  An
Institutions row with null `institution_id` is kept with primary key
the literal string `"None"` (line 50's `astype(str)` runs before line
51's `dropna`); and an Enrollment row with null `id_parcours` — one of
the five `dropna` keys of line 304 — is likewise kept by the
processed-row filter, its `id_parcours` having become the string
`"None"` at load (line 226). -/
theorem c7_counterexample :
    (instPrepare [c7NullRow]).length = 1 ∧
    instPrepare [c7NullRow] =
      [{ institution_id := PyVal.str (cpsOf "None"),
         institution_nom := PyVal.null,
         institution_type := PyVal.null }] ∧
    (insDf ([c7InsRow].map insLoadClean)).length = 1 ∧
    (insLoadClean c7InsRow).id_parcours = PyVal.str (cpsOf "None") := by
  refine ⟨by decide, by decide, by decide, by decide⟩

/-- C7 amended: the null-key drop works as claimed only for the key
columns that are never string-coerced: Student's `code_etudiant` and
the Enrollment keys `code_inscription`, `code_etudiant`,
`annee_universitaire` and `niveau`.  Every string-coerced key —
`institution_id` (line 50), the metadata keys cleaned in
`_load_and_clean_metadata`, and Enrollment's `id_parcours`, coerced by
`astype(str)` at load (line 226) before the `dropna` of line 305 — has
an absent value turned into the literal string `"None"` first, so such
a row is kept and upserted with `"None"` as the derived key instead of
being dropped: on the loaded dataframe the Enrollment `dropna` provably
reduces to the four uncoerced keys, and the Institutions `dropna` to
nothing at all. -/
theorem c7_amended :
    (∀ src : List EtuRowData,
      (etuPrepare src).all (fun p => !(isNull p.2.code_etudiant)) = true) ∧
    (∀ src : List InsRowData,
      insDf (src.map insLoadClean) =
        (src.map insLoadClean).enum.filter (fun p => insRawKeysPresent p.2)) ∧
    (∀ src : List InsRowData,
      (insDf (src.map insLoadClean)).all
        (fun p => insRawKeysPresent p.2 && !(isNull p.2.id_parcours)) = true) ∧
    (∀ src : List InstRowData,
      instPrepare src =
        dedupFirst (fun r => r.institution_id) (src.map instClean) []) ∧
    (∀ v : PyVal, isNull (safe_string (pyAstypeStr v)) = false) := by
  have hkeys : ∀ (src : List InsRowData) (p : Nat × InsRowData),
      p ∈ (src.map insLoadClean).enum →
      insReqPresent p.2 = insRawKeysPresent p.2 ∧
        isNull p.2.id_parcours = false := by
    intro src p hp
    have h2 : p.2 ∈ src.map insLoadClean := mem_enumFrom_snd hp
    obtain ⟨r, _, hr⟩ := List.mem_map.mp h2
    constructor
    · rw [← hr]
      simp [insReqPresent, insRawKeysPresent, insLoadClean,
        isNull_safe_string_astype]
    · rw [← hr]
      simp [insLoadClean, isNull_safe_string_astype]
  refine ⟨?_, ?_, ?_, instPrepare_eq_dedup, isNull_safe_string_astype⟩
  · intro src
    rw [etuPrepare]
    exact filter_all_self _ _
  · intro src
    rw [insDf]
    exact List.filter_congr (fun p hp => (hkeys src p hp).1)
  · intro src
    rw [List.all_eq_true]
    intro p hp
    have hp2 : p ∈ (src.map insLoadClean).enum := by
      rw [insDf] at hp
      exact List.mem_of_mem_filter hp
    obtain ⟨h1, h2⟩ := hkeys src p hp2
    have h3 : insRawKeysPresent p.2 = true := by
      rw [insDf] at hp
      have := (List.mem_filter.mp hp).2
      rwa [h1] at this
    simp [h3, h2]

def c5Env : MetaEnv :=
  { instOk := true, loadOk := true, compFails := true,
    domFails := false, menFails := false, parcFails := false }

/-- C5 counterexample: stage 1 succeeds, the metadata load succeeds,
and stage 2 (Composante) raises — yet stages 3-5 never run: the single
`try` around stages 2-5 aborts the rest of the phase and rolls the
group back, contradicting "a failure inside one of stages 2–5 does not
prevent the remaining metadata stages from running". -/
theorem c5_counterexample :
    c5Env.instOk = true ∧ c5Env.loadOk = true ∧
    (metaImport c5Env).stage1Committed = true ∧
    (metaImport c5Env).ran = [2] ∧
    3 ∉ (metaImport c5Env).ran ∧
    (metaImport c5Env).groupCommitted = false ∧
    (metaImport c5Env).rolledBack = true := by
  decide

/-- C5 amended: the driver aborts the whole metadata phase when stage 1
(Institution) fails, and stage 1 commits alone first; but stages 2-5
are not best-effort: they run inside one `try`, so the first failure
among them prevents every later metadata stage from running and rolls
the group back; the group commits as one transaction only when all of
stages 2-5 succeed. -/
theorem c5_amended (env : MetaEnv) :
    (metaImport env).stage1Committed = env.instOk ∧
    decide (2 ∈ (metaImport env).ran) = (env.instOk && env.loadOk) ∧
    decide (3 ∈ (metaImport env).ran) =
      (env.instOk && env.loadOk && !env.compFails) ∧
    decide (4 ∈ (metaImport env).ran) =
      (env.instOk && env.loadOk && !env.compFails && !env.domFails) ∧
    decide (5 ∈ (metaImport env).ran) =
      (env.instOk && env.loadOk && !env.compFails && !env.domFails &&
        !env.menFails) ∧
    (metaImport env).groupCommitted =
      (env.instOk && env.loadOk && !env.compFails && !env.domFails &&
        !env.menFails && !env.parcFails) ∧
    (metaImport env).rolledBack =
      (env.instOk && env.loadOk &&
        (env.compFails || env.domFails || env.menFails || env.parcFails)) := by
  obtain ⟨a, b, c, d, e, f⟩ := env
  cases a <;> cases b <;> cases c <;> cases d <;> cases e <;> cases f <;> decide

/-- C6: in the Enrollment import every row-level failure is contained:
the log is exactly one entry per failing processed row (category, raw
entity key, raw detail, source row index); every processed row is
attempted (no failure escapes the loop); each bucket counter counts
exactly the rows the classifier assigns to it; the four buckets
together account for every failing row (each failure lands in exactly
one); and classification is a total function assigning a bucket to
every non-`ok` outcome — an unrecognized exception shape lands in the
other/unknown bucket. -/
theorem c6_enrollment_error_containment (s0 : Store PyVal Inscription)
    (src : List InsRowData) :
    (insImport s0 src).logs =
      (insDf src).filterMap (fun p => insLogOf p.1 p.2) ∧
    (insImport s0 src).attempts = (insDf src).length ∧
    (insImport s0 src).fk =
      (insDf src).countP (fun p => classifyIns p.2.outcome == some ErrBucket.fk) ∧
    (insImport s0 src).uq =
      (insDf src).countP (fun p => classifyIns p.2.outcome == some ErrBucket.uq) ∧
    (insImport s0 src).dataE =
      (insDf src).countP
        (fun p => classifyIns p.2.outcome == some ErrBucket.dataB) ∧
    (insImport s0 src).othr =
      (insDf src).countP
        (fun p => classifyIns p.2.outcome == some ErrBucket.othr) ∧
    (insImport s0 src).fk + (insImport s0 src).uq + (insImport s0 src).dataE +
        (insImport s0 src).othr =
      (insDf src).countP (fun p => !(p.2.outcome == DbOutcome.ok)) ∧
    (∀ o : DbOutcome, (classifyIns o).isSome = !(o == DbOutcome.ok)) := by
  obtain ⟨ha, hl, hfk, huq, hd, ho, hc⟩ := insLoop_spec (insDf src) (insInit s0)
  have efk : (insImport s0 src).fk = (insLoop (insInit s0) (insDf src)).fk := rfl
  have euq : (insImport s0 src).uq = (insLoop (insInit s0) (insDf src)).uq := rfl
  have edata : (insImport s0 src).dataE =
    (insLoop (insInit s0) (insDf src)).dataE := rfl
  have eothr : (insImport s0 src).othr =
    (insLoop (insInit s0) (insDf src)).othr := rfl
  refine ⟨?_, ?_, ?_, ?_, ?_, ?_, ?_, ?_⟩
  · rw [show (insImport s0 src).logs =
      (insLoop (insInit s0) (insDf src)).logs from rfl, hl]
    simp [insInit]
  · rw [show (insImport s0 src).attempts =
      (insLoop (insInit s0) (insDf src)).attempts from rfl, ha]
    simp [insInit]
  · rw [efk, hfk]
    simp [insInit]
  · rw [euq, huq]
    simp [insInit]
  · rw [edata, hd]
    simp [insInit]
  · rw [eothr, ho]
    simp [insInit]
  · rw [efk, euq, edata, eothr, hfk, huq, hd, ho]
    have := classify_buckets_sum (insDf src)
    simp only [insInit]
    omega
  · intro o
    cases o with
    | ok => rfl
    | integrityErr m =>
      by_cases hf : strHas fkText (pyLower m) <;>
        by_cases hu : strHas uqText (pyLower m) <;>
        simp [classifyIns, hf, hu]
    | dataErr m => rfl
    | otherErr m => rfl

def c2RowA : InsRowData :=
  { code_inscription := PyVal.str (cpsOf "I1"),
    code_etudiant := PyVal.str (cpsOf "S1"),
    annee_universitaire := PyVal.str (cpsOf "2023-2024"),
    id_parcours := PyVal.str (cpsOf "P1"),
    niveau := PyVal.str (cpsOf "L1"),
    formation := PyVal.str (cpsOf "A"),
    outcome := DbOutcome.ok }

def c2RowB : InsRowData := { c2RowA with formation := PyVal.str (cpsOf "B") }

/-- C2 counterexample: the Enrollment stage does not deduplicate.  Two
source rows sharing the natural key `code_inscription` both survive the
prepare step (which is only a `dropna`), both reach the upsert, and the
stored row ends up with the second occurrence's field values — the
later occurrence is neither discarded nor ignored. -/
theorem c2_counterexample :
    c2RowB.code_inscription = c2RowA.code_inscription ∧
    (insDf [c2RowA, c2RowB]).length = 2 ∧
    lookupStore (insImport [] [c2RowA, c2RowB]).db (insKey c2RowA) =
      some (insEntity c2RowB) := by
  refine ⟨rfl, by decide, by decide⟩

/-- C2 amended: the stages that deduplicate (all metadata stages,
AcademicYear and Student, via `drop_duplicates(keep='first')`, modelled
by `dedupFirst`) keep exactly the first occurrence of each natural key
in original row order; the Enrollment stage performs no source-level
deduplication — every row passing its required-key `dropna` is
processed, duplicates included — and merge-by-key makes the last
occurrence's values win at the store. -/
theorem c2_amended :
    (∀ (α κ : Type) [DecidableEq κ] (key : α → κ) (l : List α) (k : κ),
      (dedupFirst key l []).filter (fun a => decide (key a = k)) =
        (l.filter (fun a => decide (key a = k))).take 1) ∧
    (∀ src : List InsRowData,
      (insDf src).length = src.countP insReqPresent) ∧
    (∀ (κ φ : Type) [DecidableEq κ] (st : Store κ φ) (k : κ) (v : φ),
      lookupStore (mergeStore st k v) k = some v) := by
  refine ⟨?_, ?_, ?_⟩
  · intro α κ inst key l k
    exact dedupFirst_filter_key key l [] k
  · intro src
    rw [insDf, ← List.countP_eq_length_filter, countP_enum]
  · intro κ φ inst st k v
    exact lookupStore_mergeStore_self st k v

def c3Src : List EtuRowData :=
  [mkEtuRow "A" DbOutcome.ok,
   mkEtuRow "B" (DbOutcome.dataErr
     "StringDataRightTruncation: value too long for type character varying(50)"),
   mkEtuRow "C" DbOutcome.ok]

/-- C3: Student import isolates failures per row.  For any source whose
prepared rows (distinct students) contain exactly one failing row,
classified as a truncation error: exactly N-1 students end up stored
(starting from an empty student table), exactly one error is counted,
exactly one truncation-formatted log line is written, every prepared
row is attempted (processing continues past the failure), and every
successful row — before and after the failing one — is present in the
store. -/
theorem c3_student_isolation (src : List EtuRowData)
    (hone : (etuPrepare src).countP (fun p => etuRowFails p.2) = 1)
    (htrunc : ((etuPrepare src).filter (fun p => etuRowFails p.2)).all
      (fun p => etuTruncFail p.2) = true)
    (hnodup : (((etuPrepare src).filter (fun p => !(etuRowFails p.2))).map
      (fun p => etuKey p.2)).Nodup) :
    (etuImport [] src).db.length = (etuPrepare src).length - 1 ∧
    (etuImport [] src).errs = 1 ∧
    (etuImport [] src).logs.countP (fun e => e.trunc) = 1 ∧
    (etuImport [] src).attempts = (etuPrepare src).length ∧
    ((etuPrepare src).filter (fun p => !(etuRowFails p.2))).all
      (fun p => (lookupStore (etuImport [] src).db (etuKey p.2)).isSome) =
      true := by
  obtain ⟨ha, he, hl⟩ := etuLoop_spec (etuPrepare src) ⟨[], 0, [], 0⟩
  have hdb := etuLoop_db (etuPrepare src) ⟨[], 0, [], 0⟩
    (fun p _ _ => rfl) hnodup
  have himp : ∀ x : Nat × EtuRowData,
      etuTruncFail x.2 = true → etuRowFails x.2 = true := by
    intro x hx
    rw [etuRowFails]
    cases hm : etuFailMsg x.2 with
    | none =>
      rw [etuTruncFail, hm] at hx
      exact absurd hx (by simp)
    | some m => rfl
  have hsplit := countP_bool_split (fun p : Nat × EtuRowData => etuRowFails p.2)
    (etuPrepare src)
  refine ⟨?_, ?_, ?_, ?_, ?_⟩
  · rw [show (etuImport [] src).db = (etuLoop ⟨[], 0, [], 0⟩ (etuPrepare src)).db
      from rfl, hdb]
    simp only [List.nil_append, List.length_map]
    rw [← List.countP_eq_length_filter]
    omega
  · rw [show (etuImport [] src).errs = (etuLoop ⟨[], 0, [], 0⟩ (etuPrepare src)).errs
      from rfl, he, hone]
  · rw [show (etuImport [] src).logs = (etuLoop ⟨[], 0, [], 0⟩ (etuPrepare src)).logs
      from rfl, hl]
    simp only [List.nil_append]
    have hco := countP_eq_of_filter_all
      (fun p : Nat × EtuRowData => etuRowFails p.2)
      (fun p : Nat × EtuRowData => etuTruncFail p.2)
      (etuPrepare src) himp htrunc
    rw [countP_trunc_logs, hco, hone]
  · rw [show (etuImport [] src).attempts =
      (etuLoop ⟨[], 0, [], 0⟩ (etuPrepare src)).attempts from rfl, ha]
    simp
  · rw [List.all_eq_true]
    intro p hp
    have hkey : etuKey p.2 ∈
        storeKeys ((etuImport [] src).db) := by
      rw [show (etuImport [] src).db = (etuLoop ⟨[], 0, [], 0⟩ (etuPrepare src)).db
        from rfl, hdb]
      simp only [List.nil_append, storeKeys, List.map_map]
      exact List.mem_map_of_mem _ hp
    simpa using lookupStore_isSome_of_mem_keys hkey

theorem c3_student_isolation_witness :
    (etuImport [] c3Src).db.length = (etuPrepare c3Src).length - 1 ∧
    (etuImport [] c3Src).errs = 1 ∧
    (etuImport [] c3Src).logs.countP (fun e => e.trunc) = 1 ∧
    (etuImport [] c3Src).attempts = (etuPrepare c3Src).length ∧
    ((etuPrepare c3Src).filter (fun p => !(etuRowFails p.2))).all
      (fun p => (lookupStore (etuImport [] c3Src).db (etuKey p.2)).isSome) =
      true :=
  c3_student_isolation c3Src (by decide) (by decide) (by decide)

def c1GoodRow : InsRowData :=
  { code_inscription := PyVal.str [], code_etudiant := PyVal.str [],
    annee_universitaire := PyVal.str [], id_parcours := PyVal.str [],
    niveau := PyVal.str [], formation := PyVal.null,
    outcome := DbOutcome.ok }

def c1BadRow : InsRowData := { c1GoodRow with niveau := PyVal.null }

def c1Src : List InsRowData := c1BadRow :: List.replicate 500 c1GoodRow

set_option maxRecDepth 100000 in
/-- C1 counterexample: batch boundaries follow the original source row
index (`row.name`), not the processed-row count.  With the first source
row dropped by the required-key filter, 500 rows are processed, yet the
loop commit fires after the 499th processed row (the one with source
index 499) and no loop commit fires after the 500th processed row —
contradicting "a commit is issued exactly after every 500th processed
source row". -/
theorem c1_counterexample :
    (insImport [] c1Src).attempts = 500 ∧
    (insImport [] c1Src).commitPos = [499] ∧
    (insImport [] c1Src).commitIdx = [499] ∧
    ¬ (499 % 500 = 0) := by
  refine ⟨by decide, by decide, by decide, by decide⟩

/-- C1 amended: during the Enrollment loop a commit is issued exactly
after each successfully merged row whose original source index `i`
satisfies `(i + 1) % 500 == 0` (a dropped or failing boundary row skips
that boundary's commit), with one final commit after the loop; and rows
once committed are durable — whatever is in the committed database
after any prefix of the processed rows is still present after the whole
import, regardless of later row failures. -/
theorem c1_amended (s0 : Store PyVal Inscription) (src : List InsRowData)
    (l1 l2 : List (Nat × InsRowData)) (k : PyVal)
    (hsplit : insDf src = l1 ++ l2)
    (hcommitted : (lookupStore (insLoop (insInit s0) l1).db k).isSome = true) :
    (insImport s0 src).commitIdx =
      ((insDf src).filter (fun p => (p.2.outcome == DbOutcome.ok) &&
        ((p.1 + 1) % 500 == 0))).map Prod.fst ∧
    (lookupStore (insImport s0 src).db k).isSome = true := by
  constructor
  · have h := (insLoop_spec (insDf src) (insInit s0)).2.2.2.2.2.2
    rw [show (insImport s0 src).commitIdx =
      (insLoop (insInit s0) (insDf src)).commitIdx from rfl, h]
    simp [insInit]
  · have hinit : dbVisible (insInit s0) := fun k2 hk2 => hk2
    obtain ⟨hvis1, _⟩ := insLoop_dbVisible l1 (insInit s0) hinit
    obtain ⟨hvis2, hmono2⟩ := insLoop_dbVisible l2 (insLoop (insInit s0) l1) hvis1
    have hdb2 := hmono2 k hcommitted
    have hloopfull : insLoop (insInit s0) (insDf src) =
        insLoop (insLoop (insInit s0) l1) l2 := by
      rw [hsplit, insLoop, insLoop, insLoop, List.foldl_append]
    rw [show (insImport s0 src).db =
      (insLoop (insInit s0) (insDf src)).work from rfl, hloopfull]
    exact hvis2 k hdb2

def c1WitIns : Inscription :=
  ⟨PyVal.null, PyVal.null, PyVal.null, PyVal.null, PyVal.null, PyVal.null⟩

def c1WitStore : Store PyVal Inscription := [(PyVal.str [], c1WitIns)]

def c1WitSrc : List InsRowData :=
  [{ c1GoodRow with outcome := DbOutcome.dataErr "bad value" }]

theorem c1_amended_witness :
    (insImport c1WitStore c1WitSrc).commitIdx =
      ((insDf c1WitSrc).filter (fun p => (p.2.outcome == DbOutcome.ok) &&
        ((p.1 + 1) % 500 == 0))).map Prod.fst ∧
    (lookupStore (insImport c1WitStore c1WitSrc).db (PyVal.str [])).isSome =
      true :=
  c1_amended c1WitStore c1WitSrc [] (insDf c1WitSrc) (PyVal.str [])
    (List.nil_append _).symm (by decide)
